import Mathlib

/-!
Shallow embedding of the Smart-Committee core (Django app `committee` plus the
account signup adapter) and proofs about the claims of its specification.

Conventions of the embedding:
* calendar dates are triples (year, month, day) of integers, compared
  lexicographically (`Date.before` is Python's `<` on `datetime.date`);
* timestamps (`timezone.now()`) are integers, compared with `<`/`≤`;
* `Decimal` amounts are integers (cents); the code only adds and compares
  amounts, which `Decimal` does exactly, so `Int` is a faithful carrier;
* database tables are lists of records, a Django `save()` is a pure function
  from record to record, views are functions from (request data, state) to
  (result, state);
* a Django form's `ValidationError`s are accumulated in a list, in the order
  the code raises them; a form is valid iff that list is empty.
-/

namespace SmartCommittee

/-- A calendar date, as in Python's `datetime.date`. -/
structure Date where
  year : Int
  month : Int
  day : Int
deriving DecidableEq, Repr

/-- Python's `<` on dates: lexicographic on (year, month, day). -/
def Date.before (a b : Date) : Bool :=
  if a.year ≠ b.year then decide (a.year < b.year)
  else if a.month ≠ b.month then decide (a.month < b.month)
  else decide (a.day < b.day)

/-- Gregorian leap-year test. -/
def isLeapYear (y : Int) : Bool :=
  (y % 4 == 0 && y % 100 != 0) || y % 400 == 0

/-- Number of days in a month. -/
def daysInMonth (y m : Int) : Int :=
  if m = 2 then (if isLeapYear y then 29 else 28)
  else if m = 4 ∨ m = 6 ∨ m = 9 ∨ m = 11 then 30
  else 31

/-- Python's `dateutil.relativedelta(months=n)` added to a date: shift the month,
clamping the day to the length of the target month. -/
def addMonths (d : Date) (n : Int) : Date :=
  let t : Int := d.year * 12 + (d.month - 1) + n
  let y : Int := t.ediv 12
  let m : Int := t.emod 12 + 1
  { year := y, month := m, day := min d.day (daysInMonth y m) }

/-- Values of `Committee.status` (`committee/models.py`, `STATUS_CHOICES`). -/
inductive CommitteeStatus
  | ACTIVE
  | DEACTIVATED
  | COMPLETED
deriving DecidableEq, Repr

/-- Values of `Membership.status`. -/
inductive MembershipStatus
  | ACTIVE
  | LEFT
  | REMOVED
deriving DecidableEq, Repr

/-- Values of `Contribution.payment_status`. -/
inductive PaymentStatus
  | PAID
  | PENDING
  | LATE
deriving DecidableEq, Repr

/-- Values of `Invitation.status`. -/
inductive InvitationStatus
  | PENDING
  | ACCEPTED
  | EXPIRED
deriving DecidableEq, Repr

/-- The fields of `accounts.models.User` the committee core reads. -/
structure UserCtx where
  id : Nat
  email : String
  is_organizer : Bool
  is_authenticated : Bool
deriving DecidableEq, Repr

/-- The `Committee` model row (`committee/models.py`). -/
structure Committee where
  id : Nat
  name : String
  description : String
  status : CommitteeStatus
  monthly_amount : Int
  duration_months : Int
  organizerId : Nat
  start_date : Date
  end_date : Option Date
deriving DecidableEq, Repr

/-- Model method `Committee.save`: derive `end_date` when unset, then auto-complete —
but only when the status is `ACTIVE` and the end date has passed. -/
def Committee.modelSave (today : Date) (c0 : Committee) : Committee :=
  let c := if c0.end_date.isNone then
      { c0 with end_date := some (addMonths c0.start_date c0.duration_months) }
    else c0
  match c.end_date with
  | some e =>
      if c.status = CommitteeStatus.ACTIVE ∧ e.before today then
        { c with status := CommitteeStatus.COMPLETED }
      else c
  | none => c

/-- Model property `Committee.is_completed`: `end_date and end_date < today`. -/
def Committee.is_completed (today : Date) (c : Committee) : Bool :=
  match c.end_date with
  | some e => e.before today
  | none => false

/-- Model method `Committee.deactivate`: transition `ACTIVE → DEACTIVATED` when not
completed; returns whether it transitioned. -/
def Committee.deactivate (today : Date) (c : Committee) : Committee × Bool :=
  if c.status = CommitteeStatus.ACTIVE ∧ c.is_completed today = false then
    (Committee.modelSave today { c with status := CommitteeStatus.DEACTIVATED }, true)
  else (c, false)

/-- Model method `Committee.reactivate`: transition `DEACTIVATED → ACTIVE` when not
completed; returns whether it transitioned. -/
def Committee.reactivate (today : Date) (c : Committee) : Committee × Bool :=
  if c.status = CommitteeStatus.DEACTIVATED ∧ c.is_completed today = false then
    (Committee.modelSave today { c with status := CommitteeStatus.ACTIVE }, true)
  else (c, false)

/-- Input data of `CommitteeForm` (`committee/forms.py`, fields `name`,
`description`, `monthly_amount`, `duration_months`, `start_date`). -/
structure CommitteeInput where
  name : String
  description : String
  monthly_amount : Int
  duration_months : Int
  start_date : Date
deriving DecidableEq, Repr

/-- Field-level validation of `CommitteeForm`: the model fields impose
required non-empty text, a `DecimalField(max_digits=10, decimal_places=2)`
digit bound on the amount (in cents), and `PositiveIntegerField`'s
non-negativity on the duration. The `clean` method's organizer check always
passes in `committee_create`, which promotes the requester to organizer
first. No positivity check on the amount and no strict positivity on the
duration exist anywhere in the form or the model. -/
def committeeFormValid (inp : CommitteeInput) : Bool :=
  decide (inp.name ≠ "") && decide (inp.description ≠ "") &&
  decide (inp.monthly_amount.natAbs < 10 ^ 10) &&
  decide (0 ≤ inp.duration_months)

/-- The `committee_create` view (`committee/views.py`): validate the form,
then `form.save()` sets the organizer and calls `Committee.save`. Returns
`none` when validation fails (nothing stored). -/
def committee_create (today : Date) (requesterId : Nat) (newId : Nat)
    (inp : CommitteeInput) : Option Committee :=
  if committeeFormValid inp then
    some (Committee.modelSave today
      { id := newId
        name := inp.name
        description := inp.description
        status := CommitteeStatus.ACTIVE
        monthly_amount := inp.monthly_amount
        duration_months := inp.duration_months
        organizerId := requesterId
        start_date := inp.start_date
        end_date := none })
  else none

/-- The `Membership` model row. -/
structure MembershipRow where
  committeeId : Nat
  memberId : Nat
  status : MembershipStatus
  joined_at : Int
  left_at : Option Int
deriving DecidableEq, Repr

/-- The `membership_create` view (`committee/views.py`): organizer-gated;
for each posted user id that names an existing user, create a membership
unless one already exists for the (committee, user) pair. No check at all
that the user is not the committee's organizer. -/
def membership_create (requesterId : Nat) (c : Committee)
    (allUserIds : List Nat) (user_ids : List Nat) (now : Int)
    (rows : List MembershipRow) : List MembershipRow :=
  if c.organizerId ≠ requesterId then rows
  else
    user_ids.foldl (fun acc uid =>
      if allUserIds.contains uid then
        if acc.any (fun r => decide (r.committeeId = c.id ∧ r.memberId = uid)) then acc
        else acc ++ [{ committeeId := c.id, memberId := uid,
                       status := MembershipStatus.ACTIVE, joined_at := now,
                       left_at := none }]
      else acc) rows

/-- The `Contribution` model row. -/
structure Contribution where
  membershipId : Nat
  amount_paid : Int
  for_month : Date
  due_date : Option Date
  payment_date : Option Date
  payment_status : PaymentStatus
  verified_by_organizer : Bool
deriving DecidableEq, Repr

/-- Model method `Contribution.clean`: when both `payment_date` and `due_date` are set,
re-derive `payment_status` (`LATE` when paid after due, else `PAID`);
otherwise leave the stored status untouched. -/
def Contribution.clean (c : Contribution) : Contribution :=
  match c.payment_date, c.due_date with
  | some pd, some dd =>
      { c with payment_status :=
          if dd.before pd then PaymentStatus.LATE else PaymentStatus.PAID }
  | _, _ => c

/-- Model method `Contribution.save`: default `due_date` to the 5th of `for_month`'s
month when unset (`for_month` is a required field), then run `clean`. -/
def Contribution.modelSave (c0 : Contribution) : Contribution :=
  let dd := Date.mk c0.for_month.year c0.for_month.month 5
  let c := if c0.due_date.isNone then { c0 with due_date := some dd } else c0
  Contribution.clean c

/-- The membership context a `ContributionForm` is bound to: the membership
row's identity and the fields of its committee the form reads. -/
structure MembershipCtx where
  id : Nat
  committeeId : Nat
  memberId : Nat
  organizerId : Nat
  monthly_amount : Int
deriving DecidableEq, Repr

/-- The validation errors `ContributionForm` can raise, in source order. -/
inductive ContribError
  | wrongAmount
  | noPermission
  | duplicateMonth
  | futureMonth
deriving DecidableEq, Repr

/-- Input data of `ContributionForm` (fields `amount_paid`, `for_month`). -/
structure ContributionInput where
  amount_paid : Int
  for_month : Date
deriving DecidableEq, Repr

/-- Validation of `ContributionForm` (`clean_amount_paid` and `clean`) for a
new record: exact-amount check, requester permission, one contribution per
(membership, calendar month), and no future month. -/
def contributionFormErrors (user : UserCtx) (m : MembershipCtx)
    (contribs : List Contribution) (today : Date)
    (inp : ContributionInput) : List ContribError :=
  (if inp.amount_paid ≠ m.monthly_amount then [ContribError.wrongAmount] else []) ++
  (if ¬ (user.is_organizer = true ∨ m.memberId = user.id) then [ContribError.noPermission] else []) ++
  (if contribs.any (fun c => decide (c.membershipId = m.id ∧
      c.for_month.month = inp.for_month.month ∧
      c.for_month.year = inp.for_month.year)) then [ContribError.duplicateMonth] else []) ++
  (if today.before inp.for_month then [ContribError.futureMonth] else [])

/-- Form save `ContributionForm.save(commit=False)` for a new record: attach the
membership, default `payment_date` to today, derive `payment_status` from
the dates (the fresh instance has no `due_date` yet), and auto-verify
`PAID`/`LATE` submissions when the requesting user has the organizer flag. -/
def contributionFormSaveNoCommit (user : UserCtx) (m : MembershipCtx)
    (today : Date) (inp : ContributionInput) : Contribution :=
  let inst : Contribution :=
    { membershipId := m.id, amount_paid := inp.amount_paid,
      for_month := inp.for_month, due_date := none, payment_date := none,
      payment_status := PaymentStatus.PENDING, verified_by_organizer := false }
  let inst := if inst.payment_date.isNone then { inst with payment_date := some today } else inst
  let inst :=
    match inst.payment_date with
    | some pd =>
        { inst with payment_status :=
            match inst.due_date with
            | some dd => if dd.before pd then PaymentStatus.LATE else PaymentStatus.PAID
            | none => PaymentStatus.PAID }
    | none => { inst with payment_status := PaymentStatus.PENDING }
  if (inst.payment_status = PaymentStatus.PAID ∨ inst.payment_status = PaymentStatus.LATE)
      ∧ user.is_organizer = true then
    { inst with verified_by_organizer := true }
  else inst

/-- Result of the `member_contribution_create` view. -/
inductive MemberContribResult
  | notSelf
  | invalid (errs : List ContribError)
  | created (c : Contribution)
deriving DecidableEq, Repr

/-- The `member_contribution_create` view: only the member themself may
submit; on a valid form it takes the form instance, overwrites
`payment_status` with `PENDING`, and calls `Contribution.save` (which
re-derives the status from the dates). -/
def member_contribution_create (user : UserCtx) (m : MembershipCtx)
    (contribs : List Contribution) (today : Date)
    (inp : ContributionInput) : MemberContribResult :=
  if user.id ≠ m.memberId then MemberContribResult.notSelf
  else
    let errs := contributionFormErrors user m contribs today inp
    if errs.isEmpty then
      let inst := contributionFormSaveNoCommit user m today inp
      let inst := { inst with payment_status := PaymentStatus.PENDING }
      MemberContribResult.created (Contribution.modelSave inst)
    else MemberContribResult.invalid errs

/-- The `Payout` model row. -/
structure Payout where
  membershipId : Nat
  total_amount : Int
  received_by : Option Nat
  is_confirmed : Bool
  received_in_cash : Bool
  confirmed_at : Option Int
  paid_at : Int
deriving DecidableEq, Repr

/-- The validation errors `PayoutForm` can raise, in source order. -/
inductive PayoutError
  | amountExceedsVerified
  | notOrganizer
  | duplicatePayout
deriving DecidableEq, Repr

/-- Input data of `PayoutForm` (fields `total_amount`, `received_by`,
`received_in_cash`, `is_confirmed`). -/
structure PayoutFormInput where
  total_amount : Int
  received_by : Option Nat
  received_in_cash : Bool
  is_confirmed : Bool
deriving DecidableEq, Repr

/-- The bound computed by `PayoutForm.clean_total_amount`: the sum of
`amount_paid` over the membership's contributions whose status is `PAID` or
`LATE` and which the organizer verified. -/
def verifiedTotal (mId : Nat) (contribs : List Contribution) : Int :=
  (contribs.filter (fun c => decide (c.membershipId = mId ∧
      (c.payment_status = PaymentStatus.PAID ∨ c.payment_status = PaymentStatus.LATE) ∧
      c.verified_by_organizer = true))).foldl (fun s c => s + c.amount_paid) 0

/-- Validation of `PayoutForm` (`clean_total_amount` then `clean`): the amount
bound against `verifiedTotal`, the organizer permission check, and — for a
new record only — the one-payout-per-membership check. -/
def payoutFormErrors (requesterId : Nat) (organizerId : Nat) (m : MembershipCtx)
    (contribs : List Contribution) (payouts : List Payout) (isUpdate : Bool)
    (inp : PayoutFormInput) : List PayoutError :=
  (if verifiedTotal m.id contribs < inp.total_amount then [PayoutError.amountExceedsVerified] else []) ++
  (if organizerId ≠ requesterId then [PayoutError.notOrganizer] else []) ++
  (if isUpdate = false ∧ (payouts.any (fun p => decide (p.membershipId = m.id))) = true
     then [PayoutError.duplicatePayout] else [])

/-- The `payout_create` view: organizer-gated; on a valid form it stores a
new payout for the membership, forced confirmed with `confirmed_at = now`
(`paid_at` is `auto_now_add`). On failure nothing is stored. -/
def payout_create (requesterId : Nat) (m : MembershipCtx)
    (contribs : List Contribution) (payouts : List Payout) (now : Int)
    (inp : PayoutFormInput) : Except (List PayoutError) (List Payout) :=
  if m.organizerId ≠ requesterId then Except.error [PayoutError.notOrganizer]
  else
    let errs := payoutFormErrors requesterId m.organizerId m contribs payouts false inp
    if errs.isEmpty then
      Except.ok (payouts ++
        [{ membershipId := m.id, total_amount := inp.total_amount,
           received_by := inp.received_by, is_confirmed := true,
           received_in_cash := inp.received_in_cash,
           confirmed_at := some now, paid_at := now }])
    else Except.error errs

/-- The list of payouts after `payout_create`: unchanged when the form is
invalid. -/
def payoutCreateResultState (requesterId : Nat) (m : MembershipCtx)
    (contribs : List Contribution) (payouts : List Payout) (now : Int)
    (inp : PayoutFormInput) : List Payout :=
  match payout_create requesterId m contribs payouts now inp with
  | Except.ok l => l
  | Except.error _ => payouts

/-- The `payout_update` view: organizer-gated; the same `PayoutForm`
validation runs on an existing record (so `clean_total_amount` re-checks the
bound against the current `verifiedTotal`); on success the record's fields
are replaced and `confirmed_at` is stamped only on the first
unconfirmed-to-confirmed transition. On failure the record is unchanged. -/
def payout_update (requesterId : Nat) (m : MembershipCtx)
    (contribs : List Contribution) (p : Payout) (now : Int)
    (inp : PayoutFormInput) : Except (List PayoutError) Payout :=
  if m.organizerId ≠ requesterId then Except.error [PayoutError.notOrganizer]
  else
    let errs := payoutFormErrors requesterId m.organizerId m contribs [] true inp
    if errs.isEmpty then
      Except.ok { p with
        total_amount := inp.total_amount,
        received_by := inp.received_by,
        received_in_cash := inp.received_in_cash,
        is_confirmed := inp.is_confirmed,
        confirmed_at :=
          if p.is_confirmed = false ∧ inp.is_confirmed = true then some now
          else p.confirmed_at }
    else Except.error errs

/-- The payout row after `payout_update`: unchanged when the form is
invalid. -/
def payoutUpdateResultState (requesterId : Nat) (m : MembershipCtx)
    (contribs : List Contribution) (p : Payout) (now : Int)
    (inp : PayoutFormInput) : Payout :=
  match payout_update requesterId m contribs p now inp with
  | Except.ok q => q
  | Except.error _ => p

/-- ASCII lowering of a string, as Python's `str.lower()` acts on the
ASCII e-mail addresses the code compares. -/
def lowerStr (s : String) : String :=
  String.mk (s.data.map Char.toLower)

/-- The `Invitation` model row, with the fields the views read and write
(`committee`, `email`, `token`, `status`, `expires_at`). -/
structure Invitation where
  id : Nat
  committeeId : Nat
  email : String
  token : String
  status : InvitationStatus
  expires_at : Option Int
deriving DecidableEq, Repr

/-- Predicate `_can_accept` (`committee/views.py`): authenticated requester, pending
invitation, not past expiry, case-insensitively matching e-mail. -/
def can_accept (inv : Invitation) (user : UserCtx) (now : Int) : Bool :=
  if user.is_authenticated = false then false
  else if inv.status ≠ InvitationStatus.PENDING then false
  else if (match inv.expires_at with
           | some e => decide (e < now)
           | none => false) then false
  else decide (lowerStr user.email = lowerStr inv.email)

/-- State an `invitation_accept` request acts on: the invitation the token
resolved to, and the membership table. -/
structure AcceptState where
  invitation : Invitation
  memberships : List MembershipRow
deriving DecidableEq, Repr

/-- The four outcomes of `invitation_accept`. -/
inductive AcceptResult
  | invalid
  | expired
  | loginRequired
  | success
deriving DecidableEq, Repr

/-- The `invitation_accept` view: reject non-pending invitations; lazily
flip past-expiry invitations to `EXPIRED`; re-check `_can_accept`; then
get-or-create the `ACTIVE` membership, mark the invitation `ACCEPTED` and
set `expires_at` to now. -/
def invitation_accept (now : Int) (user : UserCtx) (st : AcceptState) :
    AcceptResult × AcceptState :=
  let inv := st.invitation
  if inv.status ≠ InvitationStatus.PENDING then (AcceptResult.invalid, st)
  else if (match inv.expires_at with
           | some e => decide (e < now)
           | none => false) then
    (AcceptResult.expired,
     { st with invitation := { inv with status := InvitationStatus.EXPIRED } })
  else if can_accept inv user now = false then (AcceptResult.loginRequired, st)
  else
    let ms :=
      if st.memberships.any (fun r => decide (r.committeeId = inv.committeeId ∧ r.memberId = user.id))
      then st.memberships
      else st.memberships ++
        [{ committeeId := inv.committeeId, memberId := user.id,
           status := MembershipStatus.ACTIVE, joined_at := now, left_at := none }]
    (AcceptResult.success,
     { invitation := { inv with status := InvitationStatus.ACCEPTED, expires_at := some now },
       memberships := ms })

/-- State the signup adapter acts on: the invitation table and the
membership table. -/
structure SignupState where
  invitations : List Invitation
  memberships : List MembershipRow
deriving DecidableEq, Repr

/-- The filter of `CustomAccountAdapter.save_user`
(`accounts/adapters.py`): `email__iexact=user.email, status='PENDING'`. -/
def invMatches (userEmail : String) (inv : Invitation) : Bool :=
  decide (lowerStr inv.email = lowerStr userEmail) &&
  decide (inv.status = InvitationStatus.PENDING)

/-- One iteration of the auto-accept loop in `save_user`: get-or-create the
membership for (invitation's committee, new user) and save the invitation
as `ACCEPTED` with `expires_at = now`. No expiry check is performed. -/
def processOne (now : Int) (userId : Nat) (st : SignupState) (inv : Invitation) :
    SignupState :=
  { invitations := st.invitations.map (fun j =>
      if j.id = inv.id then { j with status := InvitationStatus.ACCEPTED, expires_at := some now }
      else j),
    memberships :=
      if st.memberships.any (fun r => decide (r.committeeId = inv.committeeId ∧ r.memberId = userId))
      then st.memberships
      else st.memberships ++
        [{ committeeId := inv.committeeId, memberId := userId,
           status := MembershipStatus.ACTIVE, joined_at := now, left_at := none }] }

/-- Adapter method `CustomAccountAdapter.save_user` (invitation part): when pending
invitations case-insensitively match the new user's e-mail, clear the
user's organizer flag and auto-accept each of them; otherwise leave the
user and the state alone. -/
def save_user (now : Int) (user : UserCtx) (st : SignupState) :
    UserCtx × SignupState :=
  let pending := st.invitations.filter (invMatches user.email)
  if pending.isEmpty then (user, st)
  else ({ user with is_organizer := false }, pending.foldl (processOne now user.id) st)

/-- The payment-status derivation table exactly as the specification words
it (for the refinement comparison of claim C4, not translated from the
code): no `paymentDate` gives `PENDING`; `paymentDate` at most `dueDate`
gives `PAID`; `paymentDate` after `dueDate` gives `LATE`. -/
def specStatusDerivation (payment_date due_date : Option Date) : PaymentStatus :=
  match payment_date with
  | none => PaymentStatus.PENDING
  | some pd =>
      match due_date with
      | none => PaymentStatus.PENDING
      | some dd => if dd.before pd then PaymentStatus.LATE else PaymentStatus.PAID

/-- Predicate `_can_accept` exactly as the specification words it (for the refinement
comparison of claim C9, not translated from the code): authenticated,
pending, `expiresAt` null or strictly in the future, e-mails equal
case-insensitively. -/
def specCanAccept (inv : Invitation) (user : UserCtx) (now : Int) : Prop :=
  user.is_authenticated = true ∧ inv.status = InvitationStatus.PENDING ∧
  (inv.expires_at = none ∨ ∃ e, inv.expires_at = some e ∧ now < e) ∧
  lowerStr user.email = lowerStr inv.email

instance (inv : Invitation) (user : UserCtx) (now : Int) :
    Decidable (specCanAccept inv user now) := by
  unfold specCanAccept
  cases h : inv.expires_at <;> exact inferInstance

/-- C2, counterexample: a `DEACTIVATED` committee whose `end_date`
(2020-01-01) is long past stays `DEACTIVATED` after `save` on 2024-01-01 —
`Committee.save` auto-completes only from `ACTIVE`, so "regardless of the
status it had before the save" is false. -/
theorem committee_save_past_end_not_completed_cex :
    Date.before (Date.mk 2020 1 1) (Date.mk 2024 1 1) = true ∧
    (Committee.modelSave (Date.mk 2024 1 1)
        (Committee.mk 1 "n" "d" CommitteeStatus.DEACTIVATED 100 10 7
          (Date.mk 2019 1 1) (some (Date.mk 2020 1 1)))).status =
      CommitteeStatus.DEACTIVATED ∧
    (Committee.modelSave (Date.mk 2024 1 1)
        (Committee.mk 1 "n" "d" CommitteeStatus.DEACTIVATED 100 10 7
          (Date.mk 2019 1 1) (some (Date.mk 2020 1 1)))).status ≠
      CommitteeStatus.COMPLETED := by
  decide

/-- C2, amended: after any save, a committee that was `ACTIVE` with
`end_date < today` is `COMPLETED`; and `COMPLETED` is terminal — `save`
preserves it and `deactivate`/`reactivate` refuse to transition. A
`DEACTIVATED` committee keeps its status even past its end date. -/
theorem committee_autocomplete_active_only (today : Date) (c : Committee) :
    (∀ e, c.status = CommitteeStatus.ACTIVE → c.end_date = some e →
      e.before today = true →
      (Committee.modelSave today c).status = CommitteeStatus.COMPLETED) ∧
    (c.status = CommitteeStatus.COMPLETED →
      (Committee.modelSave today c).status = CommitteeStatus.COMPLETED ∧
      Committee.deactivate today c = (c, false) ∧
      Committee.reactivate today c = (c, false)) := by
  constructor
  · intro e hs he hb
    simp [Committee.modelSave, he, hs, hb]
  · intro hc
    refine ⟨?_, ?_, ?_⟩
    · cases h : c.end_date <;> simp [Committee.modelSave, h, hc]
    · simp [Committee.deactivate, hc]
    · simp [Committee.reactivate, hc]

/-- C2, witness for the amended theorem at a concrete committee. -/
theorem committee_autocomplete_active_only_witness :
    (Committee.modelSave (Date.mk 2024 1 1)
        (Committee.mk 1 "n" "d" CommitteeStatus.ACTIVE 100 10 7
          (Date.mk 2019 1 1) (some (Date.mk 2020 1 1)))).status =
      CommitteeStatus.COMPLETED :=
  (committee_autocomplete_active_only (Date.mk 2024 1 1)
      (Committee.mk 1 "n" "d" CommitteeStatus.ACTIVE 100 10 7
        (Date.mk 2019 1 1) (some (Date.mk 2020 1 1)))).1
    (Date.mk 2020 1 1) rfl rfl (by decide)

/-- C4, counterexample: saving a contribution whose `payment_date` is unset
but whose stored status is `PAID` leaves it `PAID` — `Contribution.clean`
only rewrites the status when both dates are set, so the status after save
is not the specification's pure function of the two dates (which maps an
unset `payment_date` to `PENDING`). -/
theorem payment_status_not_pure_function_cex :
    (Contribution.modelSave
        (Contribution.mk 1 100 (Date.mk 2024 3 1) none none
          PaymentStatus.PAID false)).payment_date = none ∧
    (Contribution.modelSave
        (Contribution.mk 1 100 (Date.mk 2024 3 1) none none
          PaymentStatus.PAID false)).payment_status ≠
      specStatusDerivation
        (Contribution.modelSave
          (Contribution.mk 1 100 (Date.mk 2024 3 1) none none
            PaymentStatus.PAID false)).payment_date
        (Contribution.modelSave
          (Contribution.mk 1 100 (Date.mk 2024 3 1) none none
            PaymentStatus.PAID false)).due_date := by
  decide

/-- C4, amended: on every save, when `payment_date` is set the status is
re-derived from the dates (`LATE` when paid after the — possibly just
defaulted — due date, else `PAID`); when `payment_date` is unset the save
leaves the stored status unchanged instead of forcing `PENDING`. -/
theorem payment_status_derivation_on_save (c : Contribution) :
    (∀ pd, c.payment_date = some pd →
      ∃ dd, (Contribution.modelSave c).due_date = some dd ∧
        (Contribution.modelSave c).payment_status =
          (if dd.before pd then PaymentStatus.LATE else PaymentStatus.PAID)) ∧
    (c.payment_date = none →
      (Contribution.modelSave c).payment_status = c.payment_status) := by
  constructor
  · intro pd hpd
    cases h : c.due_date with
    | none =>
        exact ⟨Date.mk c.for_month.year c.for_month.month 5,
          by simp [Contribution.modelSave, Contribution.clean, h, hpd]⟩
    | some dd =>
        exact ⟨dd, by simp [Contribution.modelSave, Contribution.clean, h, hpd]⟩
  · intro hpd
    cases h : c.due_date <;>
      simp [Contribution.modelSave, Contribution.clean, h, hpd]

/-- C4, witness for the amended theorem: a contribution paid on 2024-03-10
against a defaulted due date of 2024-03-05 is stored `LATE`. -/
theorem payment_status_derivation_on_save_witness :
    (Contribution.modelSave
        (Contribution.mk 1 100 (Date.mk 2024 3 1) none (some (Date.mk 2024 3 10))
          PaymentStatus.PENDING false)).payment_status = PaymentStatus.LATE := by
  obtain ⟨dd, hdd, hstat⟩ :=
    (payment_status_derivation_on_save
        (Contribution.mk 1 100 (Date.mk 2024 3 1) none (some (Date.mk 2024 3 10))
          PaymentStatus.PENDING false)).1 (Date.mk 2024 3 10) rfl
  have h2 : (Contribution.modelSave
      (Contribution.mk 1 100 (Date.mk 2024 3 1) none (some (Date.mk 2024 3 10))
        PaymentStatus.PENDING false)).due_date = some (Date.mk 2024 3 5) := by decide
  rw [h2] at hdd
  have : dd = Date.mk 2024 3 5 := by
    injection hdd with h3
    exact h3.symm
  subst this
  simpa using hstat

/-- C7, counterexample: a committee whose `monthly_amount` is 0 and whose
`duration_months` is 0 — both non-positive — passes `CommitteeForm`
validation and is stored; no positivity check exists in the form or the
model, so creation does not fail with `ValidationError` there. -/
theorem committee_create_accepts_nonpositive_cex :
    committee_create (Date.mk 2024 1 1) 7 1
        (CommitteeInput.mk "c" "d" 0 0 (Date.mk 2024 1 1)) =
      some (Committee.mk 1 "c" "d" CommitteeStatus.ACTIVE 0 0 7
        (Date.mk 2024 1 1) (some (Date.mk 2024 1 1))) := by
  decide

/-- C7, amended: committee creation fails only on the form's field bounds —
in particular a negative `duration_months` is rejected (and nothing is
stored) — while any stored committee carries the input amount and duration
unchanged, with `end_date` computed as `start_date + duration_months`
months; zero or negative amounts and a zero duration are accepted. -/
theorem committee_create_validation (today : Date) (rid nid : Nat)
    (inp : CommitteeInput) :
    (inp.duration_months < 0 → committee_create today rid nid inp = none) ∧
    (∀ c, committee_create today rid nid inp = some c →
      c.monthly_amount = inp.monthly_amount ∧
      c.duration_months = inp.duration_months ∧
      c.organizerId = rid ∧
      c.end_date = some (addMonths inp.start_date inp.duration_months)) := by
  constructor
  · intro hneg
    have : ¬ (0 ≤ inp.duration_months) := by omega
    simp [committee_create, committeeFormValid, this]
  · intro c hc
    by_cases hv : committeeFormValid inp = true
    · simp only [committee_create, hv, if_pos, Option.some.injEq] at hc
      subst hc
      simp [Committee.modelSave]
      split <;> simp
    · simp [committee_create, hv] at hc

/-- C7, witness for the amended theorem: creation with duration -1 fails,
and the committee stored for a valid input carries its fields. -/
theorem committee_create_validation_witness :
    committee_create (Date.mk 2024 1 1) 7 1
        (CommitteeInput.mk "c" "d" 100 (-1) (Date.mk 2024 1 1)) = none :=
  (committee_create_validation (Date.mk 2024 1 1) 7 1
      (CommitteeInput.mk "c" "d" 100 (-1) (Date.mk 2024 1 1))).1 (by decide)

/-- Helper: when the requested amount exceeds the verified total, the
amount-bound error heads the `PayoutForm` error list. -/
theorem payoutFormErrors_amount_head (requesterId organizerId : Nat)
    (m : MembershipCtx) (contribs : List Contribution) (payouts : List Payout)
    (isUpdate : Bool) (inp : PayoutFormInput)
    (hgt : verifiedTotal m.id contribs < inp.total_amount) :
    ∃ tail, payoutFormErrors requesterId organizerId m contribs payouts isUpdate inp =
      PayoutError.amountExceedsVerified :: tail := by
  unfold payoutFormErrors
  rw [if_pos hgt]
  refine ⟨(if organizerId ≠ requesterId then [PayoutError.notOrganizer] else []) ++
    (if isUpdate = false ∧ (payouts.any fun p => decide (p.membershipId = m.id)) = true
      then [PayoutError.duplicatePayout] else []), ?_⟩
  simp only [List.cons_append, List.nil_append, List.append_assoc]

/-- C1: whenever the requested `total_amount` exceeds the current
`verifiedTotal` of the membership's verified paid-or-late contributions,
both `payout_create` and `payout_update` fail with the validation error and
leave the stored payouts unchanged — the bound is re-checked on update. -/
theorem payout_amount_bound_enforced (requesterId : Nat) (m : MembershipCtx)
    (contribs : List Contribution) (payouts : List Payout) (p : Payout)
    (now : Int) (inp : PayoutFormInput)
    (horg : m.organizerId = requesterId)
    (hgt : verifiedTotal m.id contribs < inp.total_amount) :
    (∃ errs, payout_create requesterId m contribs payouts now inp = Except.error errs ∧
       PayoutError.amountExceedsVerified ∈ errs) ∧
    payoutCreateResultState requesterId m contribs payouts now inp = payouts ∧
    (∃ errs, payout_update requesterId m contribs p now inp = Except.error errs ∧
       PayoutError.amountExceedsVerified ∈ errs) ∧
    payoutUpdateResultState requesterId m contribs p now inp = p := by
  obtain ⟨t1, ht1⟩ := payoutFormErrors_amount_head requesterId m.organizerId m
    contribs payouts false inp hgt
  obtain ⟨t2, ht2⟩ := payoutFormErrors_amount_head requesterId m.organizerId m
    contribs [] true inp hgt
  rw [horg] at ht1 ht2
  have hc : payout_create requesterId m contribs payouts now inp =
      Except.error (PayoutError.amountExceedsVerified :: t1) := by
    simp [payout_create, horg, ht1]
  have hu : payout_update requesterId m contribs p now inp =
      Except.error (PayoutError.amountExceedsVerified :: t2) := by
    simp [payout_update, horg, ht2]
  refine ⟨⟨_, hc, List.mem_cons_self _ _⟩, ?_, ⟨_, hu, List.mem_cons_self _ _⟩, ?_⟩
  · simp [payoutCreateResultState, hc]
  · simp [payoutUpdateResultState, hu]

/-- C1, witness: with no verified contributions, a payout of 50 is rejected
on both create and update and the stored payouts stay as they were. -/
theorem payout_amount_bound_enforced_witness :
    (∃ errs, payout_create 7 (MembershipCtx.mk 1 1 2 7 100) [] [] 5
        (PayoutFormInput.mk 50 none true true) = Except.error errs ∧
       PayoutError.amountExceedsVerified ∈ errs) ∧
    payoutCreateResultState 7 (MembershipCtx.mk 1 1 2 7 100) [] [] 5
        (PayoutFormInput.mk 50 none true true) = [] ∧
    (∃ errs, payout_update 7 (MembershipCtx.mk 1 1 2 7 100) []
        (Payout.mk 1 10 none false true none 0) 5
        (PayoutFormInput.mk 50 none true true) = Except.error errs ∧
       PayoutError.amountExceedsVerified ∈ errs) ∧
    payoutUpdateResultState 7 (MembershipCtx.mk 1 1 2 7 100) []
        (Payout.mk 1 10 none false true none 0) 5
        (PayoutFormInput.mk 50 none true true) = Payout.mk 1 10 none false true none 0 :=
  payout_amount_bound_enforced 7 (MembershipCtx.mk 1 1 2 7 100) [] []
    (Payout.mk 1 10 none false true none 0) 5
    (PayoutFormInput.mk 50 none true true) rfl (by decide)

/-- C6: when a payout already exists for the membership, `payout_create`
fails with the duplicate-payout validation error and the stored payouts —
including the existing one — are left untouched. -/
theorem payout_uniqueness_enforced (requesterId : Nat) (m : MembershipCtx)
    (contribs : List Contribution) (payouts : List Payout) (now : Int)
    (inp : PayoutFormInput)
    (horg : m.organizerId = requesterId)
    (hexists : payouts.any (fun p => decide (p.membershipId = m.id)) = true) :
    (∃ errs, payout_create requesterId m contribs payouts now inp = Except.error errs ∧
       PayoutError.duplicatePayout ∈ errs) ∧
    payoutCreateResultState requesterId m contribs payouts now inp = payouts := by
  have hmem : PayoutError.duplicatePayout ∈
      payoutFormErrors requesterId requesterId m contribs payouts false inp := by
    simp [payoutFormErrors, hexists]
  have hnil : payoutFormErrors requesterId requesterId m contribs payouts false inp ≠ [] :=
    List.ne_nil_of_mem hmem
  have hc : payout_create requesterId m contribs payouts now inp =
      Except.error (payoutFormErrors requesterId requesterId m contribs payouts false inp) := by
    simp [payout_create, horg, hnil]
  exact ⟨⟨_, hc, hmem⟩, by simp [payoutCreateResultState, hc]⟩

/-- C6, witness: a second payout for membership 1 is rejected and the
existing payout row survives unchanged. -/
theorem payout_uniqueness_enforced_witness :
    (∃ errs, payout_create 7 (MembershipCtx.mk 1 1 2 7 100)
        [Contribution.mk 1 100 (Date.mk 2024 3 1) (some (Date.mk 2024 3 5))
          (some (Date.mk 2024 3 5)) PaymentStatus.PAID true]
        [Payout.mk 1 100 none true true (some 0) 0] 5
        (PayoutFormInput.mk 100 none true true) = Except.error errs ∧
       PayoutError.duplicatePayout ∈ errs) ∧
    payoutCreateResultState 7 (MembershipCtx.mk 1 1 2 7 100)
        [Contribution.mk 1 100 (Date.mk 2024 3 1) (some (Date.mk 2024 3 5))
          (some (Date.mk 2024 3 5)) PaymentStatus.PAID true]
        [Payout.mk 1 100 none true true (some 0) 0] 5
        (PayoutFormInput.mk 100 none true true) =
      [Payout.mk 1 100 none true true (some 0) 0] :=
  payout_uniqueness_enforced 7 (MembershipCtx.mk 1 1 2 7 100)
    [Contribution.mk 1 100 (Date.mk 2024 3 1) (some (Date.mk 2024 3 5))
      (some (Date.mk 2024 3 5)) PaymentStatus.PAID true]
    [Payout.mk 1 100 none true true (some 0) 0] 5
    (PayoutFormInput.mk 100 none true true) rfl (by decide)

/-- C3, code-bug exhibit: a member (id 2, not the organizer) submits a
valid contribution of the exact amount for 2024-03 on 2024-03-10. The view
sets `payment_status = 'PENDING'`, but `ContributionForm.save` has already
defaulted `payment_date` to today and `Contribution.save` re-derives the
status from the dates, so the record is stored `LATE`, not `PENDING`; and
when the submitting member happens to carry the `is_organizer` flag (the
`User` model default), the form auto-verifies the record, so
`verified_by_organizer` is stored `true`, not `false`. -/
theorem member_contribution_stored_not_pending :
    member_contribution_create (UserCtx.mk 2 "m@x" false true)
        (MembershipCtx.mk 1 1 2 7 100) [] (Date.mk 2024 3 10)
        (ContributionInput.mk 100 (Date.mk 2024 3 1)) =
      MemberContribResult.created
        (Contribution.mk 1 100 (Date.mk 2024 3 1) (some (Date.mk 2024 3 5))
          (some (Date.mk 2024 3 10)) PaymentStatus.LATE false) ∧
    member_contribution_create (UserCtx.mk 2 "m@x" true true)
        (MembershipCtx.mk 1 1 2 7 100) [] (Date.mk 2024 3 10)
        (ContributionInput.mk 100 (Date.mk 2024 3 1)) =
      MemberContribResult.created
        (Contribution.mk 1 100 (Date.mk 2024 3 1) (some (Date.mk 2024 3 5))
          (some (Date.mk 2024 3 10)) PaymentStatus.LATE true) := by
  decide

/-- C5, code-bug exhibit: the `membership_create` view performs no check
against the committee's organizer — when the organizer (user 7) posts their
own id, a membership row for (committee 1, user 7) is created with no
error, violating the organizer-never-a-member invariant. -/
theorem membership_create_allows_organizer_self :
    membership_create 7
        (Committee.mk 1 "n" "d" CommitteeStatus.ACTIVE 100 10 7
          (Date.mk 2024 1 1) (some (Date.mk 2025 1 1)))
        [7] [7] 0 [] =
      [MembershipRow.mk 1 7 MembershipStatus.ACTIVE 0 none] := by
  decide

/-- Helper: `invitation_accept` on a non-pending invitation reports
"invalid" and changes nothing. -/
theorem invitation_accept_nonpending (now : Int) (user : UserCtx)
    (st : AcceptState) (h : st.invitation.status ≠ InvitationStatus.PENDING) :
    invitation_accept now user st = (AcceptResult.invalid, st) := by
  unfold invitation_accept
  rw [if_pos h]

/-- C8: a successful `invitation_accept` marks the invitation `ACCEPTED`
and sets `expires_at` to now, and any later accept of the same token fails
as "no longer valid" and leaves the whole state — invitation and
memberships — unchanged. -/
theorem invitation_token_single_use (now : Int) (user : UserCtx)
    (st : AcceptState)
    (h : (invitation_accept now user st).1 = AcceptResult.success) :
    (invitation_accept now user st).2.invitation.status = InvitationStatus.ACCEPTED ∧
    (invitation_accept now user st).2.invitation.expires_at = some now ∧
    ∀ now2 user2,
      invitation_accept now2 user2 (invitation_accept now user st).2 =
        (AcceptResult.invalid, (invitation_accept now user st).2) := by
  have hsucc : ∃ ms, (invitation_accept now user st).2 =
      AcceptState.mk { st.invitation with status := InvitationStatus.ACCEPTED, expires_at := some now } ms := by
    unfold invitation_accept at h ⊢
    dsimp only at h ⊢
    split_ifs at h ⊢ <;> simp_all
  obtain ⟨ms, hms⟩ := hsucc
  rw [hms]
  refine ⟨rfl, rfl, ?_⟩
  intro now2 user2
  exact invitation_accept_nonpending now2 user2 _ (by simp)

/-- C8, witness: user 2 accepts a pending never-expiring invitation at time
10; the invitation becomes `ACCEPTED` with `expires_at = 10`, and a retry
at time 11 is rejected with the state unchanged. -/
theorem invitation_token_single_use_witness :
    (invitation_accept 10 (UserCtx.mk 2 "a@x" false true)
        (AcceptState.mk (Invitation.mk 1 1 "a@x" "t" InvitationStatus.PENDING none) [])).2.invitation.status =
      InvitationStatus.ACCEPTED ∧
    (invitation_accept 10 (UserCtx.mk 2 "a@x" false true)
        (AcceptState.mk (Invitation.mk 1 1 "a@x" "t" InvitationStatus.PENDING none) [])).2.invitation.expires_at =
      some 10 ∧
    invitation_accept 11 (UserCtx.mk 2 "a@x" false true)
        (invitation_accept 10 (UserCtx.mk 2 "a@x" false true)
          (AcceptState.mk (Invitation.mk 1 1 "a@x" "t" InvitationStatus.PENDING none) [])).2 =
      (AcceptResult.invalid,
       (invitation_accept 10 (UserCtx.mk 2 "a@x" false true)
          (AcceptState.mk (Invitation.mk 1 1 "a@x" "t" InvitationStatus.PENDING none) [])).2) := by
  obtain ⟨h1, h2, h3⟩ := invitation_token_single_use 10 (UserCtx.mk 2 "a@x" false true)
    (AcceptState.mk (Invitation.mk 1 1 "a@x" "t" InvitationStatus.PENDING none) [])
    (by decide)
  exact ⟨h1, h2, h3 11 (UserCtx.mk 2 "a@x" false true)⟩

/-- C9, counterexample: at the exact expiry instant (`expires_at = now`),
`_can_accept` returns true — the code rejects only `now > expires_at` — but
the claimed condition "`expiresAt` is null or strictly in the future" is
false there, so the claimed equivalence fails at the boundary. -/
theorem can_accept_boundary_cex :
    can_accept (Invitation.mk 1 1 "a@x" "t" InvitationStatus.PENDING (some 5))
        (UserCtx.mk 2 "a@x" false true) 5 = true ∧
    ¬ specCanAccept (Invitation.mk 1 1 "a@x" "t" InvitationStatus.PENDING (some 5))
        (UserCtx.mk 2 "a@x" false true) 5 := by
  refine ⟨by decide, ?_⟩
  rintro ⟨-, -, hexp, -⟩
  rcases hexp with h | ⟨e, he, hlt⟩
  · exact Option.noConfusion h
  · injection he with he
    omega

/-- C9, amended: `_can_accept` returns true iff the user is authenticated,
the invitation is `PENDING`, `expires_at` is null or **not earlier than
now** (the instant itself still passes), and the e-mails match
case-insensitively. -/
theorem can_accept_characterization (inv : Invitation) (user : UserCtx)
    (now : Int) :
    can_accept inv user now = true ↔
      (user.is_authenticated = true ∧ inv.status = InvitationStatus.PENDING ∧
       (inv.expires_at = none ∨ ∃ e, inv.expires_at = some e ∧ now ≤ e) ∧
       lowerStr user.email = lowerStr inv.email) := by
  cases hauth : user.is_authenticated with
  | false => simp [can_accept, hauth]
  | true =>
    by_cases hst : inv.status = InvitationStatus.PENDING
    · cases he : inv.expires_at with
      | none => simp [can_accept, hauth, hst, he]
      | some e =>
        by_cases hlt : e < now
        · simp only [can_accept, hauth, hst, he]
          simp [hlt]
        · simp only [can_accept, hauth, hst, he]
          simp [hlt]
          omega
    · simp [can_accept, hauth, hst]

/-- C9, witness for the amended characterization at a concrete pending,
never-expiring invitation. -/
theorem can_accept_characterization_witness :
    can_accept (Invitation.mk 1 1 "a@x" "t" InvitationStatus.PENDING none)
      (UserCtx.mk 2 "a@x" false true) 0 = true :=
  (can_accept_characterization
      (Invitation.mk 1 1 "a@x" "t" InvitationStatus.PENDING none)
      (UserCtx.mk 2 "a@x" false true) 0).mpr ⟨rfl, rfl, Or.inl rfl, rfl⟩

/-- Helper: `processOne` never removes membership rows. -/
theorem processOne_memberships_mono (now : Int) (uid : Nat) (st : SignupState)
    (inv : Invitation) (r : MembershipRow) (hr : r ∈ st.memberships) :
    r ∈ (processOne now uid st inv).memberships := by
  simp only [processOne]
  split_ifs
  · exact hr
  · exact List.mem_append_left _ hr

/-- Helper: after `processOne`, some membership row for the invitation's
committee and the signing-up user exists (found or created). -/
theorem processOne_membership_exists (now : Int) (uid : Nat) (st : SignupState)
    (inv : Invitation) :
    ∃ r ∈ (processOne now uid st inv).memberships,
      r.committeeId = inv.committeeId ∧ r.memberId = uid := by
  simp only [processOne]
  by_cases hany : (st.memberships.any fun r =>
      decide (r.committeeId = inv.committeeId ∧ r.memberId = uid)) = true
  · rw [if_pos hany]
    rw [List.any_eq_true] at hany
    obtain ⟨r, hr, hp⟩ := hany
    exact ⟨r, hr, of_decide_eq_true hp⟩
  · rw [if_neg hany]
    exact ⟨_, List.mem_append_right _ (List.mem_singleton_self _), rfl, rfl⟩

/-- Helper: membership rows persist through the whole auto-accept fold. -/
theorem foldl_processOne_memberships_mono (now : Int) (uid : Nat)
    (ps : List Invitation) (st : SignupState) (r : MembershipRow)
    (hr : r ∈ st.memberships) :
    r ∈ (ps.foldl (processOne now uid) st).memberships := by
  induction ps generalizing st with
  | nil => exact hr
  | cons a l ih => exact ih _ (processOne_memberships_mono now uid st a r hr)

/-- Helper: an invitation row with a different id than the processed one
survives `processOne` unchanged. -/
theorem processOne_invitations_other (now : Int) (uid : Nat) (st : SignupState)
    (inv j : Invitation) (hj : j ∈ st.invitations) (hne : j.id ≠ inv.id) :
    j ∈ (processOne now uid st inv).invitations := by
  simp only [processOne]
  have h2 := List.mem_map_of_mem (fun k =>
    if k.id = inv.id then { k with status := InvitationStatus.ACCEPTED, expires_at := some now } else k) hj
  simpa [hne] using h2

/-- Helper: the processed invitation's row is saved back `ACCEPTED` with
`expires_at = now`. -/
theorem processOne_invitations_self (now : Int) (uid : Nat) (st : SignupState)
    (inv : Invitation) (hj : inv ∈ st.invitations) :
    { inv with status := InvitationStatus.ACCEPTED, expires_at := some now } ∈
      (processOne now uid st inv).invitations := by
  simp only [processOne]
  have h2 := List.mem_map_of_mem (fun k =>
    if k.id = inv.id then { k with status := InvitationStatus.ACCEPTED, expires_at := some now } else k) hj
  simpa using h2

/-- Helper: an invitation row whose id none of the remaining loop steps
touches survives the fold unchanged. -/
theorem foldl_processOne_invitations_other (now : Int) (uid : Nat)
    (ps : List Invitation) (st : SignupState) (j : Invitation)
    (hj : j ∈ st.invitations) (hne : ∀ p ∈ ps, j.id ≠ p.id) :
    j ∈ (ps.foldl (processOne now uid) st).invitations := by
  induction ps generalizing st with
  | nil => exact hj
  | cons a l ih =>
      exact ih _
        (processOne_invitations_other now uid st a j hj (hne a (List.mem_cons_self a l)))
        (fun p hp => hne p (List.mem_cons_of_mem a hp))

/-- C10: at signup, `save_user` auto-accepts every `PENDING` invitation
whose e-mail case-insensitively matches the new user's e-mail, even when
its `expires_at` already lies in the past: the invitation is saved
`ACCEPTED` with `expires_at = now`, a membership row for its committee and
the new user exists afterwards, and the user loses the organizer default.
(The invitation-id column is assumed duplicate-free, as a primary key.) -/
theorem auto_accept_ignores_expiry (now e : Int) (user : UserCtx)
    (st : SignupState) (inv : Invitation)
    (hnodup : (st.invitations.map (fun i => i.id)).Nodup)
    (hmem : inv ∈ st.invitations)
    (hstatus : inv.status = InvitationStatus.PENDING)
    (hemail : lowerStr user.email = lowerStr inv.email)
    (hexp : inv.expires_at = some e) (hpast : e < now) :
    { inv with status := InvitationStatus.ACCEPTED, expires_at := some now } ∈
      (save_user now user st).2.invitations ∧
    (∃ r ∈ (save_user now user st).2.memberships,
      r.committeeId = inv.committeeId ∧ r.memberId = user.id) ∧
    (save_user now user st).1.is_organizer = false := by
  have hmatch : invMatches user.email inv = true := by
    simp [invMatches, hstatus, hemail.symm]
  have hp : inv ∈ st.invitations.filter (invMatches user.email) :=
    List.mem_filter.mpr ⟨hmem, hmatch⟩
  have hempty : (st.invitations.filter (invMatches user.email)).isEmpty = false := by
    cases hpd : st.invitations.filter (invMatches user.email) with
    | nil => rw [hpd] at hp; exact absurd hp (List.not_mem_nil _)
    | cons a l => rfl
  have hsave : save_user now user st =
      ({ user with is_organizer := false },
       (st.invitations.filter (invMatches user.email)).foldl
         (processOne now user.id) st) := by
    simp only [save_user, hempty]
    rfl
  obtain ⟨l1, l2, hps⟩ := List.append_of_mem hp
  have hsub : (st.invitations.filter (invMatches user.email)).Sublist st.invitations :=
    List.filter_sublist _
  have hnd2 : ((st.invitations.filter (invMatches user.email)).map (fun i => i.id)).Nodup :=
    (hsub.map (fun i => i.id)).nodup hnodup
  rw [hps, List.map_append, List.map_cons] at hnd2
  rw [List.nodup_append] at hnd2
  obtain ⟨-, hnd3, hdisj⟩ := hnd2
  rw [List.nodup_cons] at hnd3
  obtain ⟨hnotl2, -⟩ := hnd3
  have h1 : ∀ p ∈ l1, inv.id ≠ p.id := by
    intro p hpl1 heq
    exact (hdisj (heq ▸ List.mem_map_of_mem (fun i => i.id) hpl1))
      (List.mem_cons_self _ _)
  have h2 : ∀ p ∈ l2, inv.id ≠ p.id := by
    intro p hpl2 heq
    exact hnotl2 (heq ▸ List.mem_map_of_mem (fun i => i.id) hpl2)
  rw [hsave, hps, List.foldl_append, List.foldl_cons]
  refine ⟨?_, ?_, rfl⟩
  · have hst1 : inv ∈ (l1.foldl (processOne now user.id) st).invitations :=
      foldl_processOne_invitations_other now user.id l1 st inv hmem h1
    have hst2 := processOne_invitations_self now user.id
      (l1.foldl (processOne now user.id) st) inv hst1
    exact foldl_processOne_invitations_other now user.id l2 _ _ hst2 h2
  · obtain ⟨r, hr, hprop⟩ := processOne_membership_exists now user.id
      (l1.foldl (processOne now user.id) st) inv
    exact ⟨r, foldl_processOne_memberships_mono now user.id l2 _ r hr, hprop⟩

/-- C10, witness: a pending invitation for `A@x` that expired at time 3 is
still auto-accepted when `a@x` signs up at time 10. -/
theorem auto_accept_ignores_expiry_witness :
    Invitation.mk 1 1 "A@x" "t" InvitationStatus.ACCEPTED (some 10) ∈
      (save_user 10 (UserCtx.mk 2 "a@x" true true)
        (SignupState.mk [Invitation.mk 1 1 "A@x" "t" InvitationStatus.PENDING (some 3)] [])).2.invitations ∧
    (∃ r ∈ (save_user 10 (UserCtx.mk 2 "a@x" true true)
        (SignupState.mk [Invitation.mk 1 1 "A@x" "t" InvitationStatus.PENDING (some 3)] [])).2.memberships,
      r.committeeId = 1 ∧ r.memberId = 2) ∧
    (save_user 10 (UserCtx.mk 2 "a@x" true true)
        (SignupState.mk [Invitation.mk 1 1 "A@x" "t" InvitationStatus.PENDING (some 3)] [])).1.is_organizer = false :=
  auto_accept_ignores_expiry 10 3 (UserCtx.mk 2 "a@x" true true)
    (SignupState.mk [Invitation.mk 1 1 "A@x" "t" InvitationStatus.PENDING (some 3)] [])
    (Invitation.mk 1 1 "A@x" "t" InvitationStatus.PENDING (some 3))
    (by decide) (by decide) rfl (by decide) rfl (by decide)

end SmartCommittee
